import Mathlib

/-!
# A shallow embedding of the `toon_format` Python package

This file embeds the encoder (`toon_format/encoder.py`) and the decoder
(`toon_format/decoder.py`) of the TOON serialization library as executable
Lean definitions, and proves (or refutes) the testable properties of the
specification against them.

Modelling conventions:

* Python values handled by the library are modelled by the inductive
  `Toon.PyVal`.  Python `dict`s are modelled as ordered association lists
  (insertion order), matching the spec's "ordered mapping" data model;
  duplicate-key updates are modelled by `Toon.pyDictInsert`, which mirrors
  Python's `d[k] = v` (in-place update of an existing key, else append).
* Python `float`s occur in this code base only as values parsed from and
  printed to decimal literals (`float(s)` / `str(f)`); they are modelled by
  `Toon.PyFloat`, a sign together with the integer part and the fractional
  digits of the float's shortest decimal representation, normalised so that
  parsing and printing of plain decimal literals agree with Python.
  Exponent notation, `inf` and `nan` inputs to `float` are not modelled
  (the corresponding parser returns `none` there).
* Exceptions are modelled by `Except Toon.PyErr`.  `TypeError`,
  `NameError`, `AttributeError`, `KeyError` and `TOONDecodeError` each get
  a constructor; the messages reproduce the Python format strings.
* The decoder's mutable `self.current_line` cursor is modelled by explicit
  index passing, each routine returning the cursor value it leaves behind,
  exactly as the Python methods read and write the attribute.  The
  recursion of the line-cursor loops is expressed with a fuel parameter;
  `decode` supplies `(lines.length + 2) * (lines.length + 2)` fuel, ample
  because every loop strictly advances its cursor and the nesting depth is
  bounded by the line count, so the `PyErr.nonTermination` result is never
  reached from `decode`.
-/

namespace Toon

/-- Python `str.isspace` / `str.strip`, restricted to the ASCII whitespace
characters (the only ones this code base ever meets). -/
def pyIsSpace (c : Char) : Bool :=
  c = ' ' || c = '\t' || c = '\n' || c = '\x0b' || c = '\x0c' || c = '\r'

/-- Python `s.lstrip()` on the character list of a string. -/
def pyLStripData (l : List Char) : List Char :=
  l.dropWhile pyIsSpace

/-- Python `s.rstrip()` on the character list of a string. -/
def pyRStripData (l : List Char) : List Char :=
  (l.reverse.dropWhile pyIsSpace).reverse

/-- Python `s.strip()`. -/
def pyStrip (s : String) : String :=
  ⟨pyRStripData (pyLStripData s.data)⟩

/-- Python `s.lstrip()`. -/
def pyLStrip (s : String) : String :=
  ⟨pyLStripData s.data⟩

/-- Python `s.split(c)` for a one-character separator (the only separators
this code base uses): the pieces between occurrences of `c`, empty pieces
kept, `[""]` on the empty string. -/
def splitOnChar (c : Char) : List Char → List String
  | [] => [""]
  | x :: xs =>
    match splitOnChar c xs with
    | [] => [""]
    | s :: rest => if x = c then "" :: s :: rest else ⟨x :: s.data⟩ :: rest

/-- Python `s.startswith(c)` for a one-character pattern. -/
def startsWithChar (s : String) (c : Char) : Bool :=
  s.data.head? = some c

/-- Python `s.endswith(c)` for a one-character pattern. -/
def endsWithChar (s : String) (c : Char) : Bool :=
  s.data.getLast? = some c

/-- Python `s.replace(ab, r)` for a two-character pattern `[a, b]`:
left-to-right sequential replacement, continuing after each replacement. -/
def replacePair (a b : Char) (r : List Char) : List Char → List Char
  | [] => []
  | [x] => [x]
  | x :: y :: rest =>
    if x = a && y = b then r ++ replacePair a b r rest
    else x :: replacePair a b r (y :: rest)

/-- Python `sep.join(strs)`. -/
def pyJoin (sep : String) : List String → String
  | [] => ""
  | [x] => x
  | x :: y :: rest => x ++ sep ++ pyJoin sep (y :: rest)

/-- Python string repetition `s * n`. -/
def pyRepeat (s : String) : Nat → String
  | 0 => ""
  | n + 1 => s ++ pyRepeat s n

/-- The indentation prefix `'  ' * indent` used throughout `encoder.py`. -/
def indentStr (indent : Nat) : String :=
  pyRepeat "  " indent

/-- A Python float, modelled through its shortest decimal representation:
sign, integer part and fractional digit string (trailing zeros stripped,
`""` standing for the single digit `0` of e.g. `str(3.0) = "3.0"`). -/
structure PyFloat where
  neg : Bool
  ip : Nat
  frac : String
  deriving DecidableEq

/-- Python `str(f)` for a float `f` (shortest-representation printing). -/
def pyFloatStr (f : PyFloat) : String :=
  (if f.neg then "-" else "") ++ toString f.ip ++ "." ++
    (if f.frac = "" then "0" else f.frac)

/-- The Python values the library manipulates.  `other` stands for a value
outside the five kinds the format defines (its field records the Python
type name used in the encoder's `TypeError` message). -/
inductive PyVal where
  | null
  | bool (b : Bool)
  | int (n : Int)
  | float (f : PyFloat)
  | str (s : String)
  | dict (entries : List (String × PyVal))
  | list (items : List PyVal)
  | other (typeName : String)

instance : Inhabited PyVal := ⟨.null⟩

/-- The Python exceptions observable from `encode`/`decode`. -/
inductive PyErr where
  | typeError (msg : String)
  | nameError (msg : String)
  | attributeError (msg : String)
  | keyError (msg : String)
  | indexError (msg : String)
  | decodeError (msg : String)
  | nonTermination
  deriving DecidableEq

/-- `True` exactly on `TOONDecodeError` results. -/
def isDecodeError {α : Type} : Except PyErr α → Bool
  | .error (.decodeError _) => true
  | _ => false

/-- Python `d[k] = v` on a dict modelled as an ordered association list:
overwrite in place if the key is present, otherwise append. -/
def pyDictInsert (d : List (String × PyVal)) (k : String) (v : PyVal) :
    List (String × PyVal) :=
  match d with
  | [] => [(k, v)]
  | (k', v') :: rest =>
    if k' = k then (k', v) :: rest else (k', v') :: pyDictInsert rest k v

/-- `needs_quoting` from `encoder.py`: empty strings, strings containing one
of the special characters, and strings with leading or trailing whitespace
need quotes.  `char in s` is modelled by membership in the character list. -/
def needs_quoting (s : String) : Bool :=
  if s.data = [] then true
  else
    ([',', ':', '[', ']', '{', '}', '\n', '\t'].any fun c => s.data.contains c)
      || (match s.data.head? with | some c => pyIsSpace c | none => false)
      || (match s.data.getLast? with | some c => pyIsSpace c | none => false)

/-- Whether a value is a Python `dict` (`isinstance(item, dict)`). -/
def isDictVal : PyVal → Bool
  | .dict _ => true
  | _ => false

/-- The key list of a value, `item.keys()` for dicts and `[]` otherwise. -/
def valKeys : PyVal → List String
  | .dict es => es.map Prod.fst
  | _ => []

/-- Python `set(a) == set(b)` on two key lists. -/
def keySetEq (a b : List String) : Bool :=
  (a.all fun k => b.contains k) && (b.all fun k => a.contains k)

/-- `is_tabular` from `encoder.py`: at least two items, all dicts, and every
item's key set equal (as a set) to the first item's. -/
def is_tabular (arr : List PyVal) : Bool :=
  match arr with
  | [] => false
  | first :: _ =>
    if arr.length < 2 then false
    else if ¬ (arr.all isDictVal) then false
    else arr.all fun item => keySetEq (valKeys item) (valKeys first)

/-- `isinstance(v, (str, int, float, bool, type(None)))`, the simple-value
test of `encode_simple_array`. -/
def isSimpleScalar : PyVal → Bool
  | .null | .bool _ | .int _ | .float _ | .str _ => true
  | .dict _ | .list _ | .other _ => false

/-- First-match lookup in an association list of already-encoded cell texts
(Python dict keys are unique, so first match is the only match). -/
def lookupStr : List (String × String) → String → Option String
  | [], _ => none
  | (k', s) :: rest, k => if k' = k then some s else lookupStr rest k

/-
The mutually recursive loops of `encoder.py`.  So that the recursion stays
structural (every call descends to a strict subterm of the nested inductive
family), the bodies of the wrappers `encode_dict`, `encode_tabular_array`
and `encode_simple_array` are inlined at their call sites inside the block;
the wrappers themselves are defined right after the block with those same
bodies, so each is definitionally what the block computes.
-/
/-- The cell selection `[... for k in arr[0].keys()]` of
`encode_tabular_array` over already-encoded entry texts: one cell per field
name, first missing field raising `KeyError`. -/
def cellsFromFields (encoded : List (String × String)) :
    List String → Except PyErr (List String)
  | [] => .ok []
  | k :: ks =>
    match lookupStr encoded k with
    | some s => do
      let tail ← cellsFromFields encoded ks
      return s :: tail
    | none => .error (.keyError k)

mutual

/-- `encode` from `encoder.py`.  Values outside the dispatch chain raise
`TypeError`; a `list` reaches `return encode_array(data, indent)` where no
`encode_array` is defined anywhere in the module, so Python raises
`NameError` at that call. -/
def encode : PyVal → Nat → Except PyErr String
  | .null, _ => .ok "null"
  | .bool b, _ => .ok (if b then "true" else "false")
  | .int n, _ => .ok (toString n)
  | .float f, _ => .ok (pyFloatStr f)
  | .str s, _ => .ok (if needs_quoting s then "\"" ++ s ++ "\"" else s)
  | .dict es, indent => do
      let lines ← encodeDictLines es indent
      return pyJoin "\n" lines
  | .list _, _ => .error (.nameError "name \x27encode_array\x27 is not defined")
  | .other t, _ => .error (.typeError ("Cannot encode type " ++ t))

/-- The `for key, value in obj.items()` loop of `encode_dict`: a dict member
contributes the `key:` line plus the recursively encoded sub-dict (as one
multi-line entry), a list member one (possibly multi-line) entry via the
tabular or simple strategy, and any other member one `key: value` line. -/
def encodeDictLines : List (String × PyVal) → Nat → Except PyErr (List String)
  | [], _ => .ok []
  | (key, value) :: rest, indent => do
    let head ← match value with
      | .dict sub => do
          let ls ← encodeDictLines sub (indent + 1)
          pure [indentStr indent ++ key ++ ":", pyJoin "\n" ls]
      | .list arr =>
          if is_tabular arr then
            match arr with
            | [] => .error (.indexError "list index out of range")
            | first :: _ => do
              let header := indentStr indent ++ key ++ "[" ++ toString arr.length
                ++ "]\x7b" ++ pyJoin "," (valKeys first) ++ "\x7d:"
              let rows ← encodeTabularRows (valKeys first) arr indent
              pure [pyJoin "\n" (header :: rows)]
          else if arr.all isSimpleScalar then do
            let values ← encodeItemsFlat arr
            pure [indentStr indent ++ key ++ "[" ++ toString arr.length ++ "]: "
              ++ pyJoin "," values]
          else do
            let ls ← encodeItemsBlock arr indent
            pure [pyJoin "\n"
              ((indentStr indent ++ key ++ "[" ++ toString arr.length ++ "]:") :: ls)]
      | v => do
          let s ← encode v indent
          pure [indentStr indent ++ key ++ ": " ++ s]
    let tail ← encodeDictLines rest indent
    return head ++ tail

/-- The row loop of `encode_tabular_array`.  Python evaluates
`[encode(item[k], 0) for k in arr[0].keys()]`; here each item's values are
encoded first (`encodeEntryStrs`) and the cells then selected by field name,
which agrees with Python whenever the item's key set contains the fields —
guaranteed by the `is_tabular` guard at the call site (only which of
several errors surfaces first can differ on unguarded exotic calls). -/
def encodeTabularRows (fieldNames : List String) :
    List PyVal → Nat → Except PyErr (List String)
  | [], _ => .ok []
  | item :: rest, indent => do
    let cells ← match item with
      | .dict es => do
          let encoded ← encodeEntryStrs es
          cellsFromFields encoded fieldNames
      | _ => Except.error (.typeError "object is not subscriptable")
    let row := indentStr indent ++ "  " ++ pyJoin "," cells
    let tail ← encodeTabularRows fieldNames rest indent
    return row :: tail

/-- Encode every value of a dict at depth 0, keeping the keys. -/
def encodeEntryStrs : List (String × PyVal) → Except PyErr (List (String × String))
  | [] => .ok []
  | (k, v) :: rest => do
    let s ← encode v 0
    let tail ← encodeEntryStrs rest
    return (k, s) :: tail

/-- `[encode(v, 0) for v in arr]` of the single-line branch of
`encode_simple_array`. -/
def encodeItemsFlat : List PyVal → Except PyErr (List String)
  | [] => .ok []
  | v :: rest => do
    let s ← encode v 0
    let tail ← encodeItemsFlat rest
    return s :: tail

/-- The multi-line branch loop of `encode_simple_array`. -/
def encodeItemsBlock : List PyVal → Nat → Except PyErr (List String)
  | [], _ => .ok []
  | v :: rest, indent => do
    let encoded ← encode v (indent + 1)
    let line := if encoded.data.contains '\n' then encoded
      else indentStr indent ++ "  " ++ encoded
    let tail ← encodeItemsBlock rest indent
    return line :: tail

end

/-- `encode_dict` from `encoder.py`: render the members and join them with
newlines. -/
def encode_dict (obj : List (String × PyVal)) (indent : Nat) :
    Except PyErr String := do
  let lines ← encodeDictLines obj indent
  return pyJoin "\n" lines

/-- `encode_tabular_array` from `encoder.py`: a header line
`key[length]{fields}:` followed by one comma-joined row of the values of
`arr[0].keys()` per item, each indented one extra level.  `arr[0]` on an
empty list raises `IndexError`. -/
def encode_tabular_array (key : String) (arr : List PyVal) (indent : Nat) :
    Except PyErr String :=
  match arr with
  | [] => .error (.indexError "list index out of range")
  | first :: _ => do
    let header := indentStr indent ++ key ++ "[" ++ toString arr.length
      ++ "]\x7b" ++ pyJoin "," (valKeys first) ++ "\x7d:"
    let rows ← encodeTabularRows (valKeys first) arr indent
    return pyJoin "\n" (header :: rows)

/-- `encode_simple_array` from `encoder.py`: all-scalar arrays render on one
line `key[n]: v1,v2,...`; otherwise a `key[n]:` header line followed by each
element encoded at the next depth (multi-line elements kept verbatim,
single-line ones indented by one extra level). -/
def encode_simple_array (key : String) (arr : List PyVal) (indent : Nat) :
    Except PyErr String :=
  if arr.all isSimpleScalar then do
    let values ← encodeItemsFlat arr
    return indentStr indent ++ key ++ "[" ++ toString arr.length ++ "]: "
      ++ pyJoin "," values
  else do
    let ls ← encodeItemsBlock arr indent
    return pyJoin "\n"
      ((indentStr indent ++ key ++ "[" ++ toString arr.length ++ "]:") :: ls)

/-! ## The decoder (`decoder.py`) -/

/-- The numeric value of a decimal digit list. -/
def digitsToNat (l : List Char) : Nat :=
  l.foldl (fun acc c => acc * 10 + (c.toNat - '0'.toNat)) 0

/-- Python `int(s)` for an already-stripped string: an optional sign followed
by at least one decimal digit; `none` models `ValueError`.  (Underscore
digit grouping, accepted by Python since 3.6, is not modelled; no input in
this development contains one.) -/
def pyParseInt (s : String) : Option Int :=
  let core : List Char → Option Int := fun l =>
    if l ≠ [] && l.all Char.isDigit then some (digitsToNat l) else none
  match s.data with
  | '-' :: rest => (core rest).map (fun n => -n)
  | '+' :: rest => core rest
  | l => core l

/-- Python `float(s)` for an already-stripped plain decimal literal
`[sign] digits* "." digits*` (with at least one digit), normalised to the
`PyFloat` model; `none` models `ValueError`.  Exponent notation and
`inf`/`nan`, which Python's `float` also accepts, are not modelled — no
input in this development uses them — and literals longer than the float's
shortest representation keep their digits instead of rounding. -/
def pyParseFloat (s : String) : Option PyFloat :=
  let core : Bool → List Char → Option PyFloat := fun neg l =>
    let ip := l.takeWhile Char.isDigit
    match l.dropWhile Char.isDigit with
    | '.' :: fr =>
      if fr.all Char.isDigit && (ip ≠ [] || fr ≠ []) then
        some ⟨neg, digitsToNat ip, ⟨(fr.reverse.dropWhile (· = '0')).reverse⟩⟩
      else none
    | _ => none
  match s.data with
  | '-' :: rest => core true rest
  | '+' :: rest => core false rest
  | l => core false l

/-- `_parse_primitive` from `decoder.py`: `null`, booleans, quoted strings
(with `\"` and `\\` unescaped in that order, via sequential left-to-right
replacement), then an integer or float attempt, falling back to the raw
text as an unquoted string. -/
def pyParsePrim (value : String) : PyVal :=
  let value := pyStrip value
  if value = "null" then .null
  else if value = "true" then .bool true
  else if value = "false" then .bool false
  else if startsWithChar value '"' && endsWithChar value '"' then
    .str ⟨replacePair '\\' '\\' ['\\']
      (replacePair '\\' '"' ['"'] ((value.data.drop 1).dropLast))⟩
  else if value.data.contains '.' then
    match pyParseFloat value with
    | some f => .float f
    | none => .str value
  else
    match pyParseInt value with
    | some n => .int n
    | none => .str value

/-- The character scan of `_split_array_items`: split on commas at bracket
depth 0 outside quotes, tracking quote state and backslash escapes. -/
def splitItemsGo : List Char → List Char → Int → Bool → Bool → List String →
    List String
  | [], current, _, _, _, items =>
      if current = [] then items else items ++ [⟨current⟩]
  | c :: cs, current, depth, inQuotes, escapeNext, items =>
      if escapeNext then
        splitItemsGo cs (current ++ [c]) depth inQuotes false items
      else if c = '\\' then
        splitItemsGo cs (current ++ [c]) depth inQuotes true items
      else if c = '"' then
        splitItemsGo cs (current ++ [c]) depth (!inQuotes) escapeNext items
      else if !inQuotes && (c = '[' || c = '{') then
        splitItemsGo cs (current ++ [c]) (depth + 1) inQuotes escapeNext items
      else if !inQuotes && (c = ']' || c = '}') then
        splitItemsGo cs (current ++ [c]) (depth - 1) inQuotes escapeNext items
      else if !inQuotes && c = ',' && depth = 0 then
        splitItemsGo cs [] depth inQuotes escapeNext (items ++ [⟨current⟩])
      else
        splitItemsGo cs (current ++ [c]) depth inQuotes escapeNext items

/-- `_split_array_items` from `decoder.py`. -/
def pySplitArrayItems (content : String) : List String :=
  splitItemsGo content.data [] 0 false false []

/-- `re.match(r'\[(\d+)\]\{([^}]+)\}', s)` of `_decode_array_inline`,
returning the row count and the stripped field names on a match (the match
is anchored at the start only; trailing text is ignored, as with
`re.match`; `\d` is modelled as the ASCII digits, the only digits appearing
in this development). -/
def tabularHeader (s : String) : Option (Nat × List String) :=
  match s.data with
  | '[' :: rest =>
    let ds := rest.takeWhile Char.isDigit
    match ds, rest.dropWhile Char.isDigit with
    | [], _ => none
    | _, ']' :: '{' :: rest2 =>
      let fs := rest2.takeWhile (fun c => c ≠ '}')
      match fs, rest2.dropWhile (fun c => c ≠ '}') with
      | [], _ => none
      | _, '}' :: _ =>
        some (digitsToNat ds, (splitOnChar ',' fs).map pyStrip)
      | _, _ => none
    | _, _ => none
  | _ => none

/-- `_get_indent_level` from `decoder.py`. -/
def getIndentLevel (line : String) : Nat :=
  line.data.length - (pyLStripData line.data).length

/-- `content.split(':', 1)` after the `':' in content` membership test:
`none` when the line has no colon, else the text before the first colon and
everything after it. -/
def splitFirstColon (content : String) : Option (String × String) :=
  match splitOnChar ':' content.data with
  | [] => none
  | [_] => none
  | k :: rest => some (k, pyJoin ":" rest)

/-- The key unquoting of `_decode_object`: surrounding double quotes are
removed when present. -/
def stripKeyQuotes (key : String) : String :=
  if startsWithChar key '"' && endsWithChar key '"' then ⟨(key.data.drop 1).dropLast⟩
  else key

/-- The `zip(fields, values)` row construction of `_decode_tabular_array`. -/
def buildRow : List String → List String → List (String × PyVal) →
    List (String × PyVal)
  | f :: fs, v :: vs, acc => buildRow fs vs (pyDictInsert acc f (pyParsePrim (pyStrip v)))
  | _, _, acc => acc

/-- The row loop of `_decode_tabular_array`: read `remaining` more bracketed
rows starting at `lineIdx`, each with exactly `fields.length` comma-split
values; `total` is the declared row count used in the too-few-rows error. -/
def decodeTabularRowsLoop (lines : List String) (fields : List String)
    (total : Nat) : Nat → Nat → List PyVal → Except PyErr (List PyVal × Nat)
  | 0, lineIdx, acc => .ok (acc.reverse, lineIdx - 1)
  | n + 1, lineIdx, acc =>
    if h : lineIdx < lines.length then
      let line := pyStrip (lines.get ⟨lineIdx, h⟩)
      if ¬ (startsWithChar line '[' && endsWithChar line ']') then
        .error (.decodeError ("Line " ++ toString (lineIdx + 1)
          ++ ": Expected array row, got \x27" ++ line ++ "\x27"))
      else
        let valuesStr := pyStrip ⟨(line.data.drop 1).dropLast⟩
        let values := pySplitArrayItems valuesStr
        if values.length ≠ fields.length then
          .error (.decodeError ("Line " ++ toString (lineIdx + 1) ++ ": Expected "
            ++ toString fields.length ++ " values, got " ++ toString values.length))
        else
          decodeTabularRowsLoop lines fields total n (lineIdx + 1)
            (PyVal.dict (buildRow fields values []) :: acc)
    else
      .error (.decodeError ("Tabular array: expected " ++ toString total
        ++ " rows, got fewer"))

/-- `_decode_tabular_array` from `decoder.py`: decode `count` rows following
the header line at `startLine`, returning the rows and the cursor left on
the last row (`line_idx - 1`). -/
def decode_tabular_array (lines : List String) (startLine : Nat) (count : Nat)
    (fields : List String) : Except PyErr (List PyVal × Nat) :=
  decodeTabularRowsLoop lines fields count count (startLine + 1) []

/-
The line-cursor loops of `_decode_object`, `_decode_array_inline` and
`_decode_array_multiline`.  The mutable `self.current_line` is passed and
returned explicitly; the mutual recursion is driven by a fuel parameter
(one unit per loop iteration or nested call), which `decode` instantiates
with a quadratic budget that the Python control flow can never exhaust:
every loop strictly advances its cursor and the nesting depth is bounded
by the number of lines.
-/
mutual

/-- The member loop of `_decode_object`, entered one line past the opening
brace, accumulating members with Python dict-assignment semantics and
returning with the cursor on the closing `}` line. -/
def decodeObjLoop (lines : List String) :
    Nat → Nat → List (String × PyVal) → Except PyErr (List (String × PyVal) × Nat)
  | 0, _, _ => .error .nonTermination
  | fuel + 1, cur, result =>
    if h : cur < lines.length then
      let line := lines.get ⟨cur, h⟩
      let indent := getIndentLevel line
      let content := pyStrip line
      if content = "\x7d" then .ok (result, cur)
      else
        match splitFirstColon content with
        | none =>
          .error (.decodeError ("Line " ++ toString (cur + 1)
            ++ ": Expected key-value pair, got \x27" ++ content ++ "\x27"))
        | some (k0, v0) =>
          let key := stripKeyQuotes (pyStrip k0)
          let valuePart := pyStrip v0
          if valuePart = "\x7b" then do
            -- `self._decode_object(self.current_line, indent + self.indent_size)`
            let (sub, newCur) ← decodeObjLoop lines fuel (cur + 1) []
            let _ := indent  -- the expected-indent argument is never read
            decodeObjLoop lines fuel (newCur + 1) (pyDictInsert result key (.dict sub))
          else if startsWithChar valuePart '[' then do
            let (arr, newIdx) ← decodeArrayInline lines fuel cur valuePart
            decodeObjLoop lines fuel (newIdx + 1) (pyDictInsert result key (.list arr))
          else
            decodeObjLoop lines fuel (cur + 1)
              (pyDictInsert result key (pyParsePrim valuePart))
    else .error (.decodeError "Unexpected end of object")

/-- `_decode_array_inline` from `decoder.py`: a tabular header dispatches to
the tabular decoder, a complete bracketed line is split into primitives
(cursor unchanged), anything else is treated as a multi-line array. -/
def decodeArrayInline (lines : List String) :
    Nat → Nat → String → Except PyErr (List PyVal × Nat)
  | 0, _, _ => .error .nonTermination
  | fuel + 1, startLine, firstValue =>
    match tabularHeader firstValue with
    | some (count, fields) => decode_tabular_array lines startLine count fields
    | none =>
      if startsWithChar firstValue '[' && endsWithChar firstValue ']' then
        let content := pyStrip ⟨(firstValue.data.drop 1).dropLast⟩
        if content = "" then .ok ([], startLine)
        else .ok ((pySplitArrayItems content).map (fun it => pyParsePrim (pyStrip it)),
          startLine)
      else
        -- `_decode_array_multiline`, whose unused `start_indent` read
        -- requires `start_line` to be in range
        if startLine < lines.length then
          decodeArrayMultilineLoop lines fuel (startLine + 1) []
        else .error (.indexError "list index out of range")

/-- The element loop of `_decode_array_multiline`.  Note the faithful quirk:
a `{` element line appends the nested object but the loop's own cursor then
advances only one line (the nested call mutates only `self.current_line`,
which this loop never reads), so the object's interior lines are scanned
again as array elements. -/
def decodeArrayMultilineLoop (lines : List String) :
    Nat → Nat → List PyVal → Except PyErr (List PyVal × Nat)
  | 0, _, _ => .error .nonTermination
  | fuel + 1, lineIdx, acc =>
    if h : lineIdx < lines.length then
      let line := lines.get ⟨lineIdx, h⟩
      let content := pyStrip line
      if content = "]" then .ok (acc.reverse, lineIdx)
      else if content = "\x7b" then do
        let (obj, _) ← decodeObjLoop lines fuel (lineIdx + 1) []
        decodeArrayMultilineLoop lines fuel (lineIdx + 1) (PyVal.dict obj :: acc)
      else if startsWithChar content '[' then do
        let (arr, newIdx) ← decodeArrayInline lines fuel lineIdx content
        decodeArrayMultilineLoop lines fuel (newIdx + 1) (PyVal.list arr :: acc)
      else
        let content2 := if endsWithChar content ',' then pyStrip ⟨content.data.dropLast⟩
          else content
        decodeArrayMultilineLoop lines fuel (lineIdx + 1) (pyParsePrim content2 :: acc)
    else .error (.decodeError "Unexpected end of array")

end

/-- `_decode_object` from `decoder.py`: skip the opening-brace line and run
the member loop (the `expected_indent` parameter is accepted and ignored,
as in the source). -/
def decode_object (lines : List String) (fuel : Nat) (startLine : Nat)
    (_expectedIndent : Nat) : Except PyErr (List (String × PyVal) × Nat) :=
  decodeObjLoop lines fuel (startLine + 1) []

/-- `decode` from `decoder.py` (the module-level function wrapping
`TOONDecoder.decode`): strip and split the input into lines, then dispatch
on the first line.  A `[` root calls `self._decode_array(0, 0)`, a method
that does not exist anywhere in the class, so Python raises
`AttributeError` there; only `{` roots are actually decodable. -/
def decode (toonString : String) : Except PyErr PyVal :=
  let lines := splitOnChar '\n' (pyStrip toonString).data
  match lines with
  | [] => .error (.decodeError "Empty TOON string")
  | l0 :: _ =>
    let firstLine := pyStrip l0
    if startsWithChar firstLine '[' then
      .error (.attributeError
        "\x27TOONDecoder\x27 object has no attribute \x27_decode_array\x27")
    else if firstLine = "\x7b" then do
      let (es, _) ← decode_object lines ((lines.length + 2) * (lines.length + 2)) 0 0
      return PyVal.dict es
    else
      .error (.decodeError ("Invalid TOON format: expected \x27\x7b\x27 or \x27[\x27, got \x27"
        ++ firstLine ++ "\x27"))

/-- The first non-blank line of a decoder input, stripped — the text the
decoder's root dispatch examines. -/
def rootFirstLine (t : String) : String :=
  match splitOnChar '\n' (pyStrip t).data with
  | [] => ""
  | l0 :: _ => pyStrip l0

/-! ## Helper lemmas -/

theorem string_data_append (s t : String) : (s ++ t).data = s.data ++ t.data := rfl

theorem string_eq_of_data {s t : String} (h : s.data = t.data) : s = t := by
  cases s; cases t; exact congrArg String.mk h

theorem string_append_assoc (a b c : String) : (a ++ b) ++ c = a ++ (b ++ c) :=
  string_eq_of_data (by simp [string_data_append])

theorem string_append_empty (s : String) : s ++ "" = s :=
  string_eq_of_data (by simp [string_data_append])

theorem except_ok_of_data {a b : String} (h : a.data = b.data) :
    (Except.ok a : Except PyErr String) = .ok b :=
  congrArg Except.ok (string_eq_of_data h)

theorem except_bind_ok {α β : Type} {x : Except PyErr α} {f : α → Except PyErr β}
    {b : β} (h : (x >>= f) = .ok b) : ∃ a, x = .ok a ∧ f a = .ok b := by
  cases x with
  | error e => simp [Bind.bind, Except.bind] at h
  | ok a => exact ⟨a, rfl, by simpa [Bind.bind, Except.bind] using h⟩

theorem pyJoin_cons (sep x : String) (ys : List String) :
    ∃ t, pyJoin sep (x :: ys) = x ++ t := by
  cases ys with
  | nil => exact ⟨"", (string_append_empty x).symm⟩
  | cons y yr =>
    exact ⟨sep ++ pyJoin sep (y :: yr), by simp [pyJoin, string_append_assoc]⟩

theorem except_ok_bind {α β : Type} (a : α) (f : α → Except PyErr β) :
    (Except.ok a >>= f) = f a := rfl

theorem except_pure_eq_ok {α : Type} (a : α) :
    (pure a : Except PyErr α) = Except.ok a := rfl

theorem cons_eq_cons_of {L M : String} {ts : List String} (h : L = M) :
    L :: ts = M :: ts := by rw [h]

theorem keySetEq_iff (a b : List String) :
    keySetEq a b = true ↔ ∀ k, (k ∈ a ↔ k ∈ b) := by
  unfold keySetEq
  simp [List.all_eq_true, List.elem_iff]
  constructor
  · rintro ⟨h1, h2⟩ k
    exact ⟨fun hk => h1 k hk, fun hk => h2 k hk⟩
  · intro h
    exact ⟨fun k hk => (h k).1 hk, fun k hk => (h k).2 hk⟩

theorem isDictVal_iff (v : PyVal) :
    isDictVal v = true ↔ ∃ es, v = PyVal.dict es := by
  cases v <;> simp [isDictVal]

/-- Every member rendered by the `encode_dict` loop begins with the
indentation prefix followed by the member's key verbatim: the first entry of
a successful `encodeDictLines` result extends `indentStr i ++ k`. -/
theorem dictLinesHead {k : String} {v : PyVal} {rest : List (String × PyVal)}
    {i : Nat} {lines : List String}
    (h : encodeDictLines ((k, v) :: rest) i = .ok lines) :
    ∃ t ts, lines = ((indentStr i ++ k) ++ t) :: ts := by
  cases v with
  | dict sub =>
    simp only [encodeDictLines] at h
    obtain ⟨ls, -, h2⟩ := except_bind_ok h
    obtain ⟨y, hy, h3⟩ := except_bind_ok h2
    simp only [pure, Except.pure, Except.ok.injEq] at hy
    subst hy
    obtain ⟨tail, -, h4⟩ := except_bind_ok h3
    simp only [pure, Except.pure, Except.ok.injEq] at h4
    subst h4
    exact ⟨":", pyJoin "\n" ls :: tail, rfl⟩
  | list arr =>
    simp only [encodeDictLines] at h
    by_cases ht : is_tabular arr = true
    · rw [if_pos ht] at h
      cases arr with
      | nil => simp [is_tabular] at ht
      | cons first rest' =>
        obtain ⟨rows, -, h2⟩ := except_bind_ok h
        obtain ⟨y, hy, h3⟩ := except_bind_ok h2
        simp only [pure, Except.pure, Except.ok.injEq] at hy
        subst hy
        obtain ⟨tail, -, h4⟩ := except_bind_ok h3
        simp only [pure, Except.pure, Except.ok.injEq] at h4
        subst h4
        obtain ⟨w, hw⟩ := pyJoin_cons "\n"
          (indentStr i ++ k ++ "[" ++ toString (first :: rest').length
            ++ "]\x7b" ++ pyJoin "," (valKeys first) ++ "\x7d:") rows
        refine ⟨"[" ++ toString (first :: rest').length ++ "]\x7b"
          ++ pyJoin "," (valKeys first) ++ "\x7d:" ++ w, tail, ?_⟩
        rw [List.singleton_append, hw]
        exact cons_eq_cons_of (string_eq_of_data
          (by simp only [string_data_append, List.append_assoc]))
    · rw [if_neg ht] at h
      by_cases hs : arr.all isSimpleScalar = true
      · rw [if_pos hs] at h
        obtain ⟨vals, -, h2⟩ := except_bind_ok h
        obtain ⟨y, hy, h3⟩ := except_bind_ok h2
        simp only [pure, Except.pure, Except.ok.injEq] at hy
        subst hy
        obtain ⟨tail, -, h4⟩ := except_bind_ok h3
        simp only [pure, Except.pure, Except.ok.injEq] at h4
        subst h4
        refine ⟨"[" ++ toString arr.length ++ "]: " ++ pyJoin "," vals, tail, ?_⟩
        rw [List.singleton_append]
        exact cons_eq_cons_of (string_eq_of_data
          (by simp only [string_data_append, List.append_assoc]))
      · rw [if_neg hs] at h
        obtain ⟨ls, -, h2⟩ := except_bind_ok h
        obtain ⟨y, hy, h3⟩ := except_bind_ok h2
        simp only [pure, Except.pure, Except.ok.injEq] at hy
        subst hy
        obtain ⟨tail, -, h4⟩ := except_bind_ok h3
        simp only [pure, Except.pure, Except.ok.injEq] at h4
        subst h4
        obtain ⟨w, hw⟩ := pyJoin_cons "\n"
          (indentStr i ++ k ++ "[" ++ toString arr.length ++ "]:") ls
        refine ⟨"[" ++ toString arr.length ++ "]:" ++ w, tail, ?_⟩
        rw [List.singleton_append, hw]
        exact cons_eq_cons_of (string_eq_of_data
          (by simp only [string_data_append, List.append_assoc]))
  | null =>
    simp only [encodeDictLines] at h
    obtain ⟨s, -, h2⟩ := except_bind_ok h
    obtain ⟨y, hy, h3⟩ := except_bind_ok h2
    simp only [pure, Except.pure, Except.ok.injEq] at hy
    subst hy
    obtain ⟨tail, -, h4⟩ := except_bind_ok h3
    simp only [pure, Except.pure, Except.ok.injEq] at h4
    subst h4
    exact ⟨": " ++ s, tail, cons_eq_cons_of (string_eq_of_data
      (by simp only [string_data_append, List.append_assoc]))⟩
  | bool b =>
    simp only [encodeDictLines] at h
    obtain ⟨s, -, h2⟩ := except_bind_ok h
    obtain ⟨y, hy, h3⟩ := except_bind_ok h2
    simp only [pure, Except.pure, Except.ok.injEq] at hy
    subst hy
    obtain ⟨tail, -, h4⟩ := except_bind_ok h3
    simp only [pure, Except.pure, Except.ok.injEq] at h4
    subst h4
    exact ⟨": " ++ s, tail, cons_eq_cons_of (string_eq_of_data
      (by simp only [string_data_append, List.append_assoc]))⟩
  | int n =>
    simp only [encodeDictLines] at h
    obtain ⟨s, -, h2⟩ := except_bind_ok h
    obtain ⟨y, hy, h3⟩ := except_bind_ok h2
    simp only [pure, Except.pure, Except.ok.injEq] at hy
    subst hy
    obtain ⟨tail, -, h4⟩ := except_bind_ok h3
    simp only [pure, Except.pure, Except.ok.injEq] at h4
    subst h4
    exact ⟨": " ++ s, tail, cons_eq_cons_of (string_eq_of_data
      (by simp only [string_data_append, List.append_assoc]))⟩
  | float f =>
    simp only [encodeDictLines] at h
    obtain ⟨s, -, h2⟩ := except_bind_ok h
    obtain ⟨y, hy, h3⟩ := except_bind_ok h2
    simp only [pure, Except.pure, Except.ok.injEq] at hy
    subst hy
    obtain ⟨tail, -, h4⟩ := except_bind_ok h3
    simp only [pure, Except.pure, Except.ok.injEq] at h4
    subst h4
    exact ⟨": " ++ s, tail, cons_eq_cons_of (string_eq_of_data
      (by simp only [string_data_append, List.append_assoc]))⟩
  | str s' =>
    simp only [encodeDictLines] at h
    obtain ⟨s, -, h2⟩ := except_bind_ok h
    obtain ⟨y, hy, h3⟩ := except_bind_ok h2
    simp only [pure, Except.pure, Except.ok.injEq] at hy
    subst hy
    obtain ⟨tail, -, h4⟩ := except_bind_ok h3
    simp only [pure, Except.pure, Except.ok.injEq] at h4
    subst h4
    exact ⟨": " ++ s, tail, cons_eq_cons_of (string_eq_of_data
      (by simp only [string_data_append, List.append_assoc]))⟩
  | other tn =>
    simp only [encodeDictLines] at h
    obtain ⟨s, -, h2⟩ := except_bind_ok h
    obtain ⟨y, hy, h3⟩ := except_bind_ok h2
    simp only [pure, Except.pure, Except.ok.injEq] at hy
    subst hy
    obtain ⟨tail, -, h4⟩ := except_bind_ok h3
    simp only [pure, Except.pure, Except.ok.injEq] at h4
    subst h4
    exact ⟨": " ++ s, tail, cons_eq_cons_of (string_eq_of_data
      (by simp only [string_data_append, List.append_assoc]))⟩

end Toon

namespace Toon

/-! ## The claims -/

/-- C1.  The claimed round-trip `decode(encode(v)) == v` for tabular-free
value trees fails on the code: the encoder emits no root `{`/`}` markers
while the decoder requires them, so even the trivial trees `null` and
`{"name": "John"}` encode to text the decoder rejects with a
`TOONDecodeError`. -/
theorem c1_roundtrip_fails_on_code :
    encode .null 0 = .ok "null"
      ∧ isDecodeError (decode "null") = true
      ∧ encode (.dict [("name", .str "John")]) 0 = .ok "name: John"
      ∧ isDecodeError (decode "name: John") = true :=
  ⟨rfl, rfl, rfl, rfl⟩

/-- C2.  `encode` is not total over value trees: a list value reaches
`return encode_array(data, indent)`, and `encode_array` is defined nowhere
in the module, so Python raises `NameError` — contradicting both the claim
and the encoder's own docstring ("data: Python dict, list, or primitive to
encode"). -/
theorem c2_encode_list_raises_nameerror :
    encode (.list [.int 1, .int 2]) 0
      = .error (.nameError "name \x27encode_array\x27 is not defined") :=
  rfl

/-- C3.  The tabular round trip fails on the code: the encoder does emit the
claimed `key[n]{f1,...,fk}:` header (with `n = 2` and the two shared keys),
but its output has no root `{` line (and its rows are not bracketed), so
the decoder rejects the encoded text with a `TOONDecodeError` instead of
returning `{"users": v}`. -/
theorem c3_tabular_roundtrip_fails_on_code :
    encode (.dict [("users", .list
        [.dict [("id", .int 1), ("name", .str "Alice")],
         .dict [("id", .int 2), ("name", .str "Bob")]])]) 0
      = .ok "users[2]\x7bid,name\x7d:\n  1,Alice\n  2,Bob"
      ∧ isDecodeError (decode "users[2]\x7bid,name\x7d:\n  1,Alice\n  2,Bob") = true :=
  ⟨rfl, rfl⟩

/-- C4.  The encoder does not escape internal `"`/`\` when quoting: for the
string `,\\` (comma, backslash, backslash — which needs quoting), `encode`
wraps the characters verbatim, and the decoder's primitive parser then
collapses the backslash pair, returning `,\` instead of the original
string, so the claimed exact reversal fails. -/
theorem c4_quoting_does_not_escape :
    needs_quoting ",\\\\" = true
      ∧ encode (.str ",\\\\") 0 = .ok ("\"" ++ ",\\\\" ++ "\"")
      ∧ pyParsePrim ("\"" ++ ",\\\\" ++ "\"") = .str ",\\"
      ∧ (",\\" : String) ≠ ",\\\\" :=
  ⟨rfl, rfl, rfl, by decide⟩

/-- C5.  `needs_quoting s` is true exactly when `s` is empty, contains one
of the characters `, : [ ] { } \n \t`, or starts or ends with a whitespace
character. -/
theorem c5_needs_quoting_iff (s : String) :
    needs_quoting s = true ↔
      s = ""
        ∨ (∃ c ∈ s.data, c ∈ ([',', ':', '[', ']', '{', '}', '\n', '\t'] : List Char))
        ∨ (∃ c, s.data.head? = some c ∧ pyIsSpace c = true)
        ∨ (∃ c, s.data.getLast? = some c ∧ pyIsSpace c = true) := by
  obtain ⟨l⟩ := s
  unfold needs_quoting
  cases l with
  | nil => simp
  | cons c cs =>
    have hne : (⟨c :: cs⟩ : String) ≠ "" := by
      intro h
      exact List.cons_ne_nil c cs (congrArg String.data h)
    simp only [List.cons_ne_nil, if_false]
    rw [Bool.or_eq_true, Bool.or_eq_true]
    simp only [List.any_eq_true, List.elem_iff]
    constructor
    · rintro ((⟨x, hx1, hx2⟩ | h) | h)
      · exact Or.inr (Or.inl ⟨x, hx2, hx1⟩)
      · refine Or.inr (Or.inr (Or.inl ?_))
        revert h
        cases hh : (c :: cs).head? with
        | none => intro h; cases h
        | some a => intro h; exact ⟨a, rfl, h⟩
      · refine Or.inr (Or.inr (Or.inr ?_))
        revert h
        cases hh : (c :: cs).getLast? with
        | none => intro h; cases h
        | some a => intro h; exact ⟨a, rfl, h⟩
    · rintro (h | ⟨x, hx1, hx2⟩ | ⟨a, ha1, ha2⟩ | ⟨a, ha1, ha2⟩)
      · exact absurd h hne
      · exact Or.inl (Or.inl ⟨x, hx2, hx1⟩)
      · refine Or.inl (Or.inr ?_)
        rw [ha1]
        exact ha2
      · refine Or.inr ?_
        rw [ha1]
        exact ha2

/-- C6.  `is_tabular` holds exactly when the array has at least two
elements, every element is a dict, and every element's key set equals the
first element's key set (set equality, not order). -/
theorem c6_tabular_detection_exact (arr : List PyVal) :
    is_tabular arr = true ↔
      2 ≤ arr.length
        ∧ (∀ v ∈ arr, ∃ es, v = PyVal.dict es)
        ∧ (∀ v ∈ arr, ∀ k, k ∈ valKeys v ↔ k ∈ valKeys arr.headI) := by
  cases arr with
  | nil => simp [is_tabular]
  | cons first rest =>
    simp only [is_tabular]
    split_ifs with h1 h2
    · refine iff_of_false (by simp) ?_
      rintro ⟨hl, -, -⟩
      omega
    · rw [List.all_eq_true]
      constructor
      · intro h
        refine ⟨by omega, ?_, ?_⟩
        · intro v hv
          exact (isDictVal_iff v).1 (List.all_eq_true.1 h2 v hv)
        · intro v hv k
          exact (keySetEq_iff _ _).1 (h v hv) k
      · rintro ⟨-, -, h⟩
        intro v hv
        rw [keySetEq_iff]
        intro k
        exact h v hv k
    · refine iff_of_false (by simp) ?_
      rintro ⟨-, hall, -⟩
      exact h2 (List.all_eq_true.2 fun v hv => (isDictVal_iff v).2 (hall v hv))

/-- C7.  Any input whose first non-blank line is neither exactly `{` nor
starts with `[` is rejected with a `TOONDecodeError` (no partial result),
and an object text missing its final closing `}` is rejected with the
unterminated-structure `TOONDecodeError` rather than returning the members
parsed so far. -/
theorem c7_decode_rejects_malformed :
    (∀ t : String, rootFirstLine t ≠ "\x7b" →
        startsWithChar (rootFirstLine t) '[' = false →
        isDecodeError (decode t) = true)
      ∧ isDecodeError (decode "\x7b\n  name: John\n  age: 30") = true := by
  constructor
  · intro t h1 h2
    unfold rootFirstLine at h1 h2
    unfold decode
    cases hm : splitOnChar '\n' (pyStrip t).data with
    | nil => rfl
    | cons l0 rest =>
      rw [hm] at h1 h2
      simp only [h2, if_false, h1, Bool.false_eq_true, if_neg]
      rfl
  · rfl

/-- C7, witness: the claim's own example `"not valid toon"` is rejected
with a `TOONDecodeError`. -/
theorem c7_decode_rejects_malformed_witness :
    isDecodeError (decode "not valid toon") = true :=
  c7_decode_rejects_malformed.1 "not valid toon" (by decide) (by decide)

/-- C8, counterexample.  The second parameter of `encode` is not a
per-level indent unit rendering top-level members at column 0: with the
value `{"a": 1}` and second argument `1` the single top-level member is
rendered at column 2, not column 0. -/
theorem c8_indent_param_counterexample :
    encode (.dict [("a", .int 1)]) 1 = .ok "  a: 1"
      ∧ ("  a: 1" : String) ≠ "a: 1" :=
  ⟨rfl, by decide⟩

/-- C8, amended.  The second parameter of `encode` is the starting
indentation depth with a fixed two-space unit: `indentStr i` is `2 × i`
spaces, and encoding `{"a": 1, "b": {"c": 2}}` at starting depth `i` puts
the top-level members at column `2 × i` and the nested member one
two-space level deeper, for every `i` (column 0 only when `i = 0`). -/
theorem c8_indent_param_is_depth (i : Nat) :
    (indentStr i).data.length = 2 * i
      ∧ encode (.dict [("a", .int 1), ("b", .dict [("c", .int 2)])]) i
        = .ok (indentStr i ++ "a: 1\n" ++ indentStr i ++ "b:\n"
            ++ indentStr (i + 1) ++ "c: 2") := by
  constructor
  · induction i with
    | zero => rfl
    | succ n ih =>
      simp [indentStr, pyRepeat, string_data_append] at ih ⊢
      omega
  · apply except_ok_of_data
    simp only [pyJoin, string_data_append, List.append_assoc]
    rfl

/-- C9.  Parsing the encoder's rendering with the decoder's primitive
parser reproduces each of the eight listed primitives exactly. -/
theorem c9_primitive_roundtrip :
    (encode .null 0).map pyParsePrim = .ok .null
      ∧ (encode (.bool true) 0).map pyParsePrim = .ok (.bool true)
      ∧ (encode (.bool false) 0).map pyParsePrim = .ok (.bool false)
      ∧ (encode (.int 0) 0).map pyParsePrim = .ok (.int 0)
      ∧ (encode (.int (-3)) 0).map pyParsePrim = .ok (.int (-3))
      ∧ (encode (.float ⟨false, 3, "14"⟩) 0).map pyParsePrim
          = .ok (.float ⟨false, 3, "14"⟩)
      ∧ (encode (.str "hello") 0).map pyParsePrim = .ok (.str "hello")
      ∧ (encode (.str "needs quoting, here") 0).map pyParsePrim
          = .ok (.str "needs quoting, here") :=
  ⟨rfl, rfl, rfl, rfl, rfl, rfl, rfl, rfl⟩


/-- C10.  Object keys are rendered verbatim, never quoted or escaped: every
member line of `encode_dict` starts with the indentation prefix followed by
the raw key; a key that needs quoting is still emitted bare while a string
value with the very same content is quoted; and `encode_tabular_array`
emits its field names verbatim in the header. -/
theorem c10_keys_rendered_verbatim :
    (∀ (i : Nat) (k : String) (v : PyVal) (rest : List (String × PyVal)) (s : String),
        encode_dict ((k, v) :: rest) i = .ok s → ∃ t, s = (indentStr i ++ k) ++ t)
      ∧ (∀ (i : Nat) (k : String), needs_quoting k = true →
          encode_dict [(k, .str k)] i
            = .ok (indentStr i ++ k ++ ": \"" ++ k ++ "\""))
      ∧ (∀ (i : Nat) (k f : String) (a b : Int),
          encode_tabular_array k [.dict [(f, .int a)], .dict [(f, .int b)]] i
            = .ok (indentStr i ++ k ++ "[2]\x7b" ++ f ++ "\x7d:\n"
                ++ indentStr i ++ "  " ++ toString a ++ "\n"
                ++ indentStr i ++ "  " ++ toString b)) := by
  refine ⟨?_, ?_, ?_⟩
  · intro i k v rest s h
    unfold encode_dict at h
    obtain ⟨lines, hL, h2⟩ := except_bind_ok h
    simp only [pure, Except.pure, Except.ok.injEq] at h2
    subst h2
    obtain ⟨t, ts, rfl⟩ := dictLinesHead hL
    obtain ⟨w, hw⟩ := pyJoin_cons "\n" _ ts
    exact ⟨t ++ w, by rw [hw, string_append_assoc]⟩
  · intro i k h
    unfold encode_dict encodeDictLines
    simp [encode, h]
    apply except_ok_of_data
    simp only [pyJoin, string_data_append, List.append_assoc]
    rfl
  · intro i k f a b
    have hlook : ∀ (s : String), lookupStr [(f, s)] f = some s := by
      intro s; simp [lookupStr]
    have hlen : [PyVal.dict [(f, PyVal.int a)], PyVal.dict [(f, PyVal.int b)]].length = 2 :=
      rfl
    simp only [encode_tabular_array, encodeTabularRows, encodeEntryStrs, encode,
      cellsFromFields, valKeys, List.map, except_ok_bind, except_pure_eq_ok,
      hlook, hlen, pyJoin]
    apply except_ok_of_data
    simp only [pyJoin, string_data_append, List.append_assoc]
    rfl

/-- C10, witness: instantiating the first two parts at `{"a": 1}` (depth 0)
and at the comma-containing key `"a,b"` with itself as value. -/
theorem c10_keys_rendered_verbatim_witness :
    (∃ t, "a: 1" = (indentStr 0 ++ "a") ++ t)
      ∧ encode_dict [("a,b", .str "a,b")] 0
        = .ok (indentStr 0 ++ "a,b" ++ ": \"" ++ "a,b" ++ "\"") :=
  ⟨c10_keys_rendered_verbatim.1 0 "a" (.int 1) [] "a: 1" rfl,
   c10_keys_rendered_verbatim.2.1 0 "a,b" (by decide)⟩

end Toon
